import Mathlib

/-!
Shallow embedding of a fragment of the dubbo-go xDS client:

* `orca`          — the load-report codec (`xds/balancer/orca/orca.go`).
  Protobuf serialization of the externally defined load-report message is a
  collaborator: the embedding is parameterized over `marshal`/`unmarshal`
  functions (failure carried as `Except.error`), matching the spec, which
  treats the report as an opaque byte-serializable value.
* `xdsclient`     — update validation and client lifecycle
  (`xds/client/client.go`).
* `config_center` — the functional-options pattern
  (`config_center/dynamic_configuration.go`).

Go `error` results are modelled as `Option String` (`none` = nil error) or
`Except String`; Go maps keyed by string are modelled as association lists;
pointer-typed optional values become `Option`.
-/

namespace orca

/-- Byte strings: Go `[]byte` and Go `string` interconvert losslessly, so one
type models both the marshalled bytes and the metadata value. -/
abbrev Bytes := List Nat

/-- The transport metadata key (`const mdKey` in orca.go). -/
def mdKey : String := "X-Endpoint-Load-Metrics-Bin"

/-- gRPC metadata (`metadata.MD`): a map from lower-cased keys to value lists,
modelled as an association list. -/
abbrev MD := List (String × List Bytes)

/-- `metadata.Pairs(k, v)`: a one-entry MD under the lower-cased key. -/
def mdPairs (k : String) (v : Bytes) : MD := [(k.toLower, [v])]

/-- `MD.Get(k)`: the values stored under the lower-cased key, empty if absent. -/
def mdGet (md : MD) (k : String) : List Bytes :=
  (md.lookup k.toLower).getD []

/-- `toBytes` (orca.go): nil report yields nil; a marshal failure is logged and
yields nil; otherwise the marshalled bytes. -/
def toBytes {R : Type} (marshal : R → Except String Bytes) : Option R → Option Bytes
  | none => none
  | some r =>
    match marshal r with
    | .error _ => none
    | .ok b => some b

/-- `ToMetadata` (orca.go): nil bytes yield nil metadata; otherwise a single
pair under `mdKey`. -/
def ToMetadata {R : Type} (marshal : R → Except String Bytes) (r : Option R) :
    Option MD :=
  match toBytes marshal r with
  | none => none
  | some b => some (mdPairs mdKey b)

/-- `fromBytes` (orca.go): an unmarshal failure is logged and yields nil;
otherwise the decoded report. -/
def fromBytes {R : Type} (unmarshal : Bytes → Except String R) (b : Bytes) :
    Option R :=
  match unmarshal b with
  | .error _ => none
  | .ok r => some r

/-- `FromMetadata` (orca.go): nil when the key has no values (a nil MD behaves
as an empty map for `Get`); otherwise decode the first value under the key. -/
def FromMetadata {R : Type} (unmarshal : Bytes → Except String R)
    (md : Option MD) : Option R :=
  match mdGet (md.getD []) mdKey with
  | [] => none
  | v :: _ => fromBytes unmarshal v

/-- A concrete instance of the serialization collaborator, for evaluating the
codec on concrete inputs: a natural number marshals to the one-byte string
holding it. -/
def natMarshal (n : Nat) : Except String Bytes := .ok [n]

/-- The matching concrete deserializer: inverse of `natMarshal` on its image,
failing on every other byte string. -/
def natUnmarshal (b : Bytes) : Except String Nat :=
  match b with
  | [n] => .ok n
  | _ => .error "malformed load report"

/-- A concrete always-failing serializer, for evaluating the codec's
error-absorption on concrete inputs. -/
def failMarshal (_n : Nat) : Except String Bytes := .error "marshal failure"

/-- A concrete always-failing deserializer. -/
def failUnmarshal (_b : Bytes) : Except String Nat := .error "unmarshal failure"

end orca

namespace xdsclient

/-- The slice of `bootstrap.Config` the validator consults: the key set of the
certificate-provider table (`CertProviderConfigs`, a Go map keyed by instance
name). -/
structure Config where
  CertProviderConfigs : List String

/-- `resource.SecurityConfig`: the two optionally-set provider instance names
(Go zero value `""` = unset). -/
structure SecurityConfig where
  IdentityInstanceName : String
  RootInstanceName : String

/-- The identity-provider error message built by `securityConfigUpdateValidator`
(the "identitiy" spelling is the source's). -/
def identityMissingErr (name : String) : String :=
  "identitiy certificate provider instance name \"" ++ name ++
    "\" missing in bootstrap configuration"

/-- The root-provider error message built by `securityConfigUpdateValidator`. -/
def rootMissingErr (name : String) : String :=
  "root certificate provider instance name \"" ++ name ++
    "\" missing in bootstrap configuration"

/-- `securityConfigUpdateValidator` (client.go): nil config passes; a non-empty
identity name absent from the table fails first; otherwise a non-empty root
name absent from the table fails; otherwise pass. -/
def securityConfigUpdateValidator (cfg : Config) (sc : Option SecurityConfig) :
    Option String :=
  match sc with
  | none => none
  | some sc =>
    if sc.IdentityInstanceName ≠ "" ∧
        sc.IdentityInstanceName ∉ cfg.CertProviderConfigs then
      some (identityMissingErr sc.IdentityInstanceName)
    else if sc.RootInstanceName ≠ "" ∧
        sc.RootInstanceName ∉ cfg.CertProviderConfigs then
      some (rootMissingErr sc.RootInstanceName)
    else none

/-- The sequence of certificate-provider-table lookups
`securityConfigUpdateValidator` performs, in order, mirroring its control flow:
the identity name is looked up when non-empty; on a miss the function returns
at once, so the root name is looked up only when the identity lookup did not
miss. -/
def securityConfigLookups (cfg : Config) (sc : Option SecurityConfig) :
    List String :=
  match sc with
  | none => []
  | some sc =>
    if sc.IdentityInstanceName ≠ "" then
      if sc.IdentityInstanceName ∉ cfg.CertProviderConfigs then
        [sc.IdentityInstanceName]
      else if sc.RootInstanceName ≠ "" then
        [sc.IdentityInstanceName, sc.RootInstanceName]
      else
        [sc.IdentityInstanceName]
    else if sc.RootInstanceName ≠ "" then
      [sc.RootInstanceName]
    else []

/-- `resource.FilterChain`: the security config it carries. -/
structure FilterChain where
  SecurityCfg : Option SecurityConfig

/-- `filterChainUpdateValidator` (client.go): nil chain passes; otherwise
validate its security config. -/
def filterChainUpdateValidator (cfg : Config) (fc : Option FilterChain) :
    Option String :=
  match fc with
  | none => none
  | some fc => securityConfigUpdateValidator cfg fc.SecurityCfg

/-- Modelled from the spec: `resource.FilterChainManager` and its `Validate`
method are not among the sources under `src/` (only their caller is); the spec
says a listener update carrying an inbound filter-chain set has every chain's
security config validated. Modelled as the chain list with `Validate` returning
the first chain validation error, if any. -/
structure FilterChainManager where
  chains : List (Option FilterChain)

/-- Modelled from the spec: `FilterChainManager.Validate` applies the supplied
chain validator to every chain and surfaces the first error. -/
def filterChainsValidate (cfg : Config) (fcm : FilterChainManager) :
    Option String :=
  fcm.chains.findSome? (filterChainUpdateValidator cfg)

/-- `resource.InboundListenerConfig`: the optional filter-chain set. -/
structure InboundListenerConfig where
  FilterChains : Option FilterChainManager

/-- The update kinds `updateValidator` dispatches on: listener updates, cluster
updates, and every other kind (the Go type switch's default case). -/
inductive Update where
  | listener (inboundListenerCfg : Option InboundListenerConfig)
  | cluster (securityCfg : Option SecurityConfig)
  | other

/-- `updateValidator` (client.go): listener updates with no inbound config or
no filter chains pass, otherwise the chains are validated; cluster updates
validate their security config; every other kind passes unconditionally. -/
def updateValidator (cfg : Config) (u : Update) : Option String :=
  match u with
  | .listener inbound =>
    match inbound with
    | none => none
    | some lc =>
      match lc.FilterChains with
      | none => none
      | some fcm => filterChainsValidate cfg fcm
  | .cluster sc => securityConfigUpdateValidator cfg sc
  | .other => none

/-- An authority as the client observes it: its closed flag (`a.close()` sets
it). -/
structure Authority where
  closed : Bool

/-- The authority collaborator's `close()`. -/
def Authority.close (a : Authority) : Authority := { a with closed := true }

/-- `clientImpl` state: the one-shot done event (`grpcsync.Event`, modelled as
the Boolean it has fired), the active authority registry and the idle-authority
cache, both keyed by serialized server config. -/
structure ClientState where
  done : Bool
  authorities : List (String × Authority)
  idleAuthorities : List (String × Authority)

/-- `Close` (client.go): a no-op once done has fired; on the first call it
fires done, closes every authority in the active registry, and clears the idle
cache with expiry-callback execution enabled. The callback execution —
`TimeoutCache.Clear(true)` runs each entry's expiry callback, which closes the
idle authority (spec §4.1/§4.2, the cache is not among the sources) — is made
observable as the second component: the idle authorities after their callbacks
ran. A second call returns the state unchanged and an empty list. -/
def ClientState.Close (s : ClientState) : ClientState × List Authority :=
  if s.done then (s, [])
  else
    ({ done := true
       authorities := s.authorities.map fun p => (p.1, p.2.close)
       idleAuthorities := [] },
     s.idleAuthorities.map fun p => p.2.close)

/-- The client-closed failure `findAuthority` reports after `Close`. -/
def clientClosedErr : String := "xds: the client is closed"

/-- Modelled from the spec: `findAuthority` is not among the sources under
`src/` (only its caller `SetMetadata` is). Per the spec it must check the done
flag inside the critical section and fail fast when the client is closed;
otherwise it returns the authority from the active registry, or atomically
revives it from the idle cache, or creates a fresh one in the active
registry. -/
def findAuthority (s : ClientState) (key : String) :
    Except String (Authority × ClientState) :=
  if s.done then .error clientClosedErr
  else
    match s.authorities.lookup key with
    | some a => .ok (a, s)
    | none =>
      match s.idleAuthorities.lookup key with
      | some a =>
        .ok (a, { s with
                  authorities := (key, a) :: s.authorities
                  idleAuthorities := s.idleAuthorities.filter
                    fun p => p.1 != key })
      | none =>
        .ok ({ closed := false },
             { s with
               authorities := (key, { closed := false }) :: s.authorities })

/-- Modelled from the spec: the authority collaborator's `setMetadata` — its
internals are external; the client only propagates its error. -/
def Authority.SetMetadata (_a : Authority) (_m : Unit) : Except String Unit :=
  .ok ()

/-- Modelled from the spec: the authority collaborator's endpoint watch issued
by `SetMetadata` with a discarding callback; its bookkeeping is internal to
the authority, so it leaves the client state unchanged. -/
def Authority.watchEndpoints (_a : Authority) (_name : String)
    (s : ClientState) : ClientState := s

/-- `SetMetadata` (client.go): resolve the authority for the unnamed resource,
propagating a failure; set metadata on it, propagating a failure; then issue an
endpoint watch with a discarding callback. -/
def SetMetadata (s : ClientState) (m : Unit) : Except String ClientState :=
  match findAuthority s "" with
  | .error e => .error e
  | .ok (a, s1) =>
    match a.SetMetadata m with
    | .error e => .error e
    | .ok _ => .ok (a.watchEndpoints "" s1)

end xdsclient

namespace config_center

/-- `Options` (dynamic_configuration.go): a group name and a timeout
(`time.Duration`, an integer nanosecond count). -/
structure Options where
  Group : String
  Timeout : Int

/-- `WithGroup` (dynamic_configuration.go): the option closure setting the
group field (pointer mutation modelled as functional update). -/
def WithGroup (group : String) : Options → Options :=
  fun opt => { opt with Group := group }

/-- `WithTimeout` (dynamic_configuration.go): the option closure setting the
timeout field. -/
def WithTimeout (time : Int) : Options → Options :=
  fun opt => { opt with Timeout := time }

end config_center

/-- C1: a security config whose identity-provider instance name is non-empty
and absent from the bootstrap certificate-provider table is rejected with a
configuration error naming that instance; a security config naming only
providers present in the table (or setting no names) is accepted. -/
theorem validator_rejects_unknown_identity_accepts_known
    (cfg : xdsclient.Config) (sc : xdsclient.SecurityConfig) :
    (sc.IdentityInstanceName ≠ "" →
      sc.IdentityInstanceName ∉ cfg.CertProviderConfigs →
      xdsclient.securityConfigUpdateValidator cfg (some sc) =
        some ("identitiy certificate provider instance name \"" ++
          sc.IdentityInstanceName ++ "\" missing in bootstrap configuration")) ∧
    ((sc.IdentityInstanceName = "" ∨
        sc.IdentityInstanceName ∈ cfg.CertProviderConfigs) →
      (sc.RootInstanceName = "" ∨
        sc.RootInstanceName ∈ cfg.CertProviderConfigs) →
      xdsclient.securityConfigUpdateValidator cfg (some sc) = none) := by
  constructor
  · intro h1 h2
    simp [xdsclient.securityConfigUpdateValidator, xdsclient.identityMissingErr,
      h1, h2]
  · intro h1 h2
    have hid : ¬ (sc.IdentityInstanceName ≠ "" ∧
        sc.IdentityInstanceName ∉ cfg.CertProviderConfigs) := by
      rcases h1 with h | h
      · exact fun hc => hc.1 h
      · exact fun hc => hc.2 h
    have hroot : ¬ (sc.RootInstanceName ≠ "" ∧
        sc.RootInstanceName ∉ cfg.CertProviderConfigs) := by
      rcases h2 with h | h
      · exact fun hc => hc.1 h
      · exact fun hc => hc.2 h
    simp [xdsclient.securityConfigUpdateValidator, hid, hroot]

/-- C1 witness: with table `["p"]`, the config naming identity `"foo"` is
rejected with the message naming `"foo"`, and the config naming identity `"p"`
is accepted. -/
theorem validator_rejects_unknown_identity_accepts_known_witness :
    xdsclient.securityConfigUpdateValidator ⟨["p"]⟩ (some ⟨"foo", ""⟩) =
      some ("identitiy certificate provider instance name \"" ++ "foo" ++
        "\" missing in bootstrap configuration") ∧
    xdsclient.securityConfigUpdateValidator ⟨["p"]⟩ (some ⟨"p", ""⟩) = none :=
  ⟨(validator_rejects_unknown_identity_accepts_known ⟨["p"]⟩ ⟨"foo", ""⟩).1
      (by decide) (by decide),
   (validator_rejects_unknown_identity_accepts_known ⟨["p"]⟩ ⟨"p", ""⟩).2
      (by decide) (by decide)⟩

/-- C3 counterexample: with an empty provider table and a security config
naming identity `"foo"` and root `"bar"`, the validator performs only the
identity lookup — the root check does not run after the identity check fails,
so it is false that both checks run. -/
theorem validator_root_check_skipped_counterexample :
    xdsclient.securityConfigLookups ⟨[]⟩ (some ⟨"foo", "bar"⟩) = ["foo"] ∧
    "bar" ∉ xdsclient.securityConfigLookups ⟨[]⟩ (some ⟨"foo", "bar"⟩) := by
  decide

/-- C3 amended: the validator fails fast — when the identity check fails, it
returns at once and the root lookup does not run; nevertheless, in every case
where any named provider is missing from the bootstrap table, a
missing-provider error is surfaced before the update is accepted. -/
theorem validator_fail_fast_but_missing_always_surfaced
    (cfg : xdsclient.Config) (sc : xdsclient.SecurityConfig) :
    (sc.IdentityInstanceName ≠ "" →
      sc.IdentityInstanceName ∉ cfg.CertProviderConfigs →
      xdsclient.securityConfigLookups cfg (some sc) =
        [sc.IdentityInstanceName]) ∧
    (((sc.IdentityInstanceName ≠ "" ∧
        sc.IdentityInstanceName ∉ cfg.CertProviderConfigs) ∨
      (sc.RootInstanceName ≠ "" ∧
        sc.RootInstanceName ∉ cfg.CertProviderConfigs)) →
      (xdsclient.securityConfigUpdateValidator cfg (some sc)).isSome = true) := by
  constructor
  · intro h1 h2
    simp [xdsclient.securityConfigLookups, h1, h2]
  · intro h
    by_cases hid : sc.IdentityInstanceName ≠ "" ∧
        sc.IdentityInstanceName ∉ cfg.CertProviderConfigs
    · simp [xdsclient.securityConfigUpdateValidator, hid]
    · rcases h with h | hroot
      · exact absurd h hid
      · simp [xdsclient.securityConfigUpdateValidator, hid, hroot]

/-- C3 amended witness: with an empty table and both names set, only the
identity name is looked up and an error is surfaced. -/
theorem validator_fail_fast_but_missing_always_surfaced_witness :
    xdsclient.securityConfigLookups ⟨[]⟩ (some ⟨"foo", "bar"⟩) = ["foo"] ∧
    (xdsclient.securityConfigUpdateValidator ⟨[]⟩
      (some ⟨"foo", "bar"⟩)).isSome = true :=
  ⟨(validator_fail_fast_but_missing_always_surfaced ⟨[]⟩ ⟨"foo", "bar"⟩).1
      (by decide) (by decide),
   (validator_fail_fast_but_missing_always_surfaced ⟨[]⟩ ⟨"foo", "bar"⟩).2
      (Or.inl ⟨by decide, by decide⟩)⟩

/-- C10: `WithGroup` sets only the `Group` field, leaving `Timeout` unchanged,
and `WithTimeout` sets only the `Timeout` field, leaving `Group` unchanged. -/
theorem with_group_with_timeout_frame
    (o : config_center.Options) (g : String) (t : Int) :
    (config_center.WithGroup g o).Timeout = o.Timeout ∧
    (config_center.WithGroup g o).Group = g ∧
    (config_center.WithTimeout t o).Group = o.Group ∧
    (config_center.WithTimeout t o).Timeout = t :=
  ⟨rfl, rfl, rfl, rfl⟩

/-- C4: `Close` is idempotent — calling it on an already-closed state (the
state a first `Close` produced) returns that state unchanged and closes no
further authorities, leaving observable state identical to a single call. -/
theorem close_idempotent (s : xdsclient.ClientState) :
    xdsclient.ClientState.Close (xdsclient.ClientState.Close s).1 =
      ((xdsclient.ClientState.Close s).1, ([] : List xdsclient.Authority)) := by
  by_cases h : s.done
  · simp [xdsclient.ClientState.Close, h]
  · simp [xdsclient.ClientState.Close, h]

/-- C5: on the first call to `Close` (done not yet fired) the done flag is set,
every authority in the active registry is closed, the idle cache is emptied,
and every idle authority has its expiry callback run, which closes it — idle
authorities are closed, not merely dropped. -/
theorem close_first_call_closes_everything (s : xdsclient.ClientState)
    (h : s.done = false) :
    (xdsclient.ClientState.Close s).1.done = true ∧
    (xdsclient.ClientState.Close s).1.authorities =
      s.authorities.map (fun p => (p.1, p.2.close)) ∧
    (∀ p ∈ (xdsclient.ClientState.Close s).1.authorities,
      p.2.closed = true) ∧
    (xdsclient.ClientState.Close s).1.idleAuthorities = [] ∧
    (xdsclient.ClientState.Close s).2 =
      s.idleAuthorities.map (fun p => p.2.close) ∧
    (∀ a ∈ (xdsclient.ClientState.Close s).2, a.closed = true) := by
  have hauth : (xdsclient.ClientState.Close s).1.authorities =
      s.authorities.map (fun p => (p.1, p.2.close)) := by
    simp [xdsclient.ClientState.Close, h]
  have hidle : (xdsclient.ClientState.Close s).2 =
      s.idleAuthorities.map (fun p => p.2.close) := by
    simp [xdsclient.ClientState.Close, h]
  refine ⟨?_, hauth, ?_, ?_, hidle, ?_⟩
  · simp [xdsclient.ClientState.Close, h]
  · intro p hp
    rw [hauth] at hp
    rcases List.mem_map.mp hp with ⟨q, _, rfl⟩
    rfl
  · simp [xdsclient.ClientState.Close, h]
  · intro a ha
    rw [hidle] at ha
    rcases List.mem_map.mp ha with ⟨q, _, rfl⟩
    rfl

/-- C5 witness: a fresh client with one active and one idle authority. -/
theorem close_first_call_closes_everything_witness :
    (xdsclient.ClientState.Close
        (xdsclient.ClientState.mk false [("a", ⟨false⟩)]
          [("b", ⟨false⟩)])).1.done = true ∧
    (xdsclient.ClientState.Close
        (xdsclient.ClientState.mk false [("a", ⟨false⟩)]
          [("b", ⟨false⟩)])).1.authorities =
      [("a", xdsclient.Authority.mk false)].map (fun p => (p.1, p.2.close)) ∧
    (∀ p ∈ (xdsclient.ClientState.Close
        (xdsclient.ClientState.mk false [("a", ⟨false⟩)]
          [("b", ⟨false⟩)])).1.authorities, p.2.closed = true) ∧
    (xdsclient.ClientState.Close
        (xdsclient.ClientState.mk false [("a", ⟨false⟩)]
          [("b", ⟨false⟩)])).1.idleAuthorities = [] ∧
    (xdsclient.ClientState.Close
        (xdsclient.ClientState.mk false [("a", ⟨false⟩)]
          [("b", ⟨false⟩)])).2 =
      [("b", xdsclient.Authority.mk false)].map (fun p => p.2.close) ∧
    (∀ a ∈ (xdsclient.ClientState.Close
        (xdsclient.ClientState.mk false [("a", ⟨false⟩)]
          [("b", ⟨false⟩)])).2, a.closed = true) :=
  close_first_call_closes_everything
    (xdsclient.ClientState.mk false [("a", ⟨false⟩)] [("b", ⟨false⟩)]) rfl

/-- C9: once the client is closed, `SetMetadata` and authority resolution (the
gate for every watch operation) fail fast with the client-closed error. -/
theorem closed_client_rejects_operations (s : xdsclient.ClientState) (m : Unit)
    (k : String) (h : s.done = true) :
    xdsclient.SetMetadata s m = .error xdsclient.clientClosedErr ∧
    xdsclient.findAuthority s k = .error xdsclient.clientClosedErr := by
  have hf : ∀ key, xdsclient.findAuthority s key =
      .error xdsclient.clientClosedErr := by
    intro key
    simp [xdsclient.findAuthority, h]
  exact ⟨by simp [xdsclient.SetMetadata, hf ""], hf k⟩

/-- C9 witness: a closed client with empty registries rejects both
operations. -/
theorem closed_client_rejects_operations_witness :
    xdsclient.SetMetadata (xdsclient.ClientState.mk true [] []) () =
      .error xdsclient.clientClosedErr ∧
    xdsclient.findAuthority (xdsclient.ClientState.mk true [] []) "x" =
      .error xdsclient.clientClosedErr :=
  closed_client_rejects_operations (xdsclient.ClientState.mk true [] []) () "x"
    rfl

/-- C2: for every report that serializes successfully (and whose bytes the
collaborator deserializer maps back to it), decoding the metadata produced for
it yields the original report, and encoding a nil report yields absent
metadata with no key. -/
theorem metadata_codec_roundtrip {R : Type}
    (marshal : R → Except String orca.Bytes)
    (unmarshal : orca.Bytes → Except String R) (r : R) (b : orca.Bytes)
    (hm : marshal r = .ok b) (hu : unmarshal b = .ok r) :
    orca.FromMetadata unmarshal (orca.ToMetadata marshal (some r)) = some r ∧
    orca.ToMetadata marshal (none : Option R) = none := by
  constructor
  · simp [orca.ToMetadata, orca.toBytes, hm, orca.FromMetadata, orca.mdGet,
      orca.mdPairs, List.lookup, orca.fromBytes, hu]
  · rfl

/-- C2 witness: the concrete collaborator codec round-trips the report `3`. -/
theorem metadata_codec_roundtrip_witness :
    orca.FromMetadata orca.natUnmarshal
      (orca.ToMetadata orca.natMarshal (some 3)) = some 3 ∧
    orca.ToMetadata orca.natMarshal (none : Option Nat) = none :=
  metadata_codec_roundtrip orca.natMarshal orca.natUnmarshal 3 [3] rfl rfl

/-- C6: the load-report codec never propagates an error: a serialization
failure yields the absent value from `toBytes`, and a deserialization failure
yields the absent value from `fromBytes` and from `FromMetadata` on metadata
holding the malformed bytes. -/
theorem codec_errors_absorbed {R : Type}
    (marshal : R → Except String orca.Bytes)
    (unmarshal : orca.Bytes → Except String R) (r : R) (b : orca.Bytes)
    (e1 e2 : String) (hm : marshal r = .error e1)
    (hu : unmarshal b = .error e2) :
    orca.toBytes marshal (some r) = none ∧
    orca.fromBytes unmarshal b = none ∧
    orca.FromMetadata unmarshal (some (orca.mdPairs orca.mdKey b)) = none := by
  refine ⟨?_, ?_, ?_⟩
  · simp [orca.toBytes, hm]
  · simp [orca.fromBytes, hu]
  · simp [orca.FromMetadata, orca.mdGet, orca.mdPairs, List.lookup,
      orca.fromBytes, hu]

/-- C6 witness: the always-failing collaborator codec yields absent values,
never errors. -/
theorem codec_errors_absorbed_witness :
    orca.toBytes orca.failMarshal (some 0) = none ∧
    orca.fromBytes orca.failUnmarshal [] = none ∧
    orca.FromMetadata orca.failUnmarshal
      (some (orca.mdPairs orca.mdKey [])) = none :=
  codec_errors_absorbed orca.failMarshal orca.failUnmarshal 0 []
    "marshal failure" "unmarshal failure" rfl rfl

/-- C7: `ToMetadata` on a non-nil serializable report produces metadata holding
exactly one key/value pair under `mdKey`; `FromMetadata` is absent when the key
holds no values and otherwise decodes the first value under the key. -/
theorem metadata_single_pair_and_get {R : Type}
    (marshal : R → Except String orca.Bytes)
    (unmarshal : orca.Bytes → Except String R) (r : R) (b : orca.Bytes)
    (md : orca.MD) (hm : marshal r = .ok b) :
    orca.ToMetadata marshal (some r) = some [(orca.mdKey.toLower, [b])] ∧
    (orca.mdGet md orca.mdKey = [] →
      orca.FromMetadata unmarshal (some md) = none) ∧
    (∀ v vs, orca.mdGet md orca.mdKey = v :: vs →
      orca.FromMetadata unmarshal (some md) = orca.fromBytes unmarshal v) := by
  refine ⟨?_, ?_, ?_⟩
  · simp [orca.ToMetadata, orca.toBytes, hm, orca.mdPairs]
  · intro hget
    simp [orca.FromMetadata, hget]
  · intro v vs hget
    simp [orca.FromMetadata, hget]

/-- C7 witness: a single pair is produced for the report `3`; lookup on empty
metadata is absent; lookup on metadata holding the key decodes its first
value. -/
theorem metadata_single_pair_and_get_witness :
    orca.ToMetadata orca.natMarshal (some 3) =
      some [(orca.mdKey.toLower, [[3]])] ∧
    orca.FromMetadata orca.natUnmarshal (some ([] : orca.MD)) =
      (none : Option Nat) ∧
    orca.FromMetadata orca.natUnmarshal
      (some (orca.mdPairs orca.mdKey [3])) =
      orca.fromBytes orca.natUnmarshal [3] :=
  ⟨(metadata_single_pair_and_get orca.natMarshal orca.natUnmarshal 3 [3]
      [] rfl).1,
   (metadata_single_pair_and_get orca.natMarshal orca.natUnmarshal 3 [3]
      [] rfl).2.1 rfl,
   (metadata_single_pair_and_get orca.natMarshal orca.natUnmarshal 3 [3]
      (orca.mdPairs orca.mdKey [3]) rfl).2.2 [3] []
      (by simp [orca.mdGet, orca.mdPairs, List.lookup])⟩

/-- C8: the update validator passes every listener update with no inbound
config or no filter-chain set, every cluster update with no security config,
and every update of any other kind. -/
theorem validator_passes_trivial_updates (cfg : xdsclient.Config)
    (lc : xdsclient.InboundListenerConfig) (hlc : lc.FilterChains = none) :
    xdsclient.updateValidator cfg (.listener none) = none ∧
    xdsclient.updateValidator cfg (.listener (some lc)) = none ∧
    xdsclient.updateValidator cfg (.cluster none) = none ∧
    xdsclient.updateValidator cfg .other = none := by
  refine ⟨rfl, ?_, rfl, rfl⟩
  simp [xdsclient.updateValidator, hlc]

/-- C8 witness: the trivial updates all pass against an empty table. -/
theorem validator_passes_trivial_updates_witness :
    xdsclient.updateValidator ⟨[]⟩ (.listener none) = none ∧
    xdsclient.updateValidator ⟨[]⟩
      (.listener (some (xdsclient.InboundListenerConfig.mk none))) = none ∧
    xdsclient.updateValidator ⟨[]⟩ (.cluster none) = none ∧
    xdsclient.updateValidator ⟨[]⟩ .other = none :=
  validator_passes_trivial_updates ⟨[]⟩
    (xdsclient.InboundListenerConfig.mk none) rfl
